import Mathlib

/-!
Verification of the EcoWatt cloud endpoint (`app.py`): per-device secure
session protocol, inactivity-debounced telemetry aggregation, and chunked
firmware distribution with rollback signaling.

Python floats (timestamps, telemetry values) are modelled as rationals, and
Python dicts as insertion-ordered association lists.  HMAC-SHA256 and SHA-256
are modelled as abstract digest functions passed in as parameters: no claim
here depends on the value of a digest, only on what is fed into it and on
digests being deterministic.
-/

namespace EcoWatt

/-- Byte strings are lists of byte values (each `< 256` where it matters). -/
abbrev Bytes := List Nat

/-- Bytes of a Lean string, one byte per character code (the source only ever
feeds ASCII through these paths). -/
def strBytes (s : String) : Bytes := s.data.map Char.toNat

/-- A keyed digest function standing in for `hmac.new(key, msg, sha256).hexdigest()`. -/
abbrev HmacFn := Bytes → Bytes → String

/-- A digest function standing in for `hashlib.sha256(data).hexdigest()`. -/
abbrev ShaFn := Bytes → String

/-! ## Python dicts as association lists

Insertion order is preserved; assignment to an existing key keeps its
position, as in CPython. -/

def dget {κ α : Type} [DecidableEq κ] : List (κ × α) → κ → Option α
  | [], _ => none
  | (k, v) :: rest, key => if k = key then some v else dget rest key

def dset {κ α : Type} [DecidableEq κ] : List (κ × α) → κ → α → List (κ × α)
  | [], key, v => [(key, v)]
  | (k, w) :: rest, key, v =>
      if k = key then (k, v) :: rest else (k, w) :: dset rest key v

def dpop {κ α : Type} [DecidableEq κ] : List (κ × α) → κ → List (κ × α)
  | [], _ => []
  | (k, w) :: rest, key => if k = key then rest else (k, w) :: dpop rest key

theorem dget_dset_self {κ α : Type} [DecidableEq κ] (m : List (κ × α)) (k : κ) (v : α) :
    dget (dset m k v) k = some v := by
  induction m with
  | nil => simp [dget, dset]
  | cons hd tl ih =>
      obtain ⟨k', v'⟩ := hd
      by_cases h : k' = k <;> simp [dget, dset, h, ih]

theorem dget_dset_ne {κ α : Type} [DecidableEq κ] (m : List (κ × α)) (k k' : κ) (v : α)
    (h : k ≠ k') : dget (dset m k v) k' = dget m k' := by
  induction m with
  | nil => simp [dget, dset, h]
  | cons hd tl ih =>
      obtain ⟨k₀, v₀⟩ := hd
      by_cases h₀ : k₀ = k
      · subst h₀; simp [dget, dset, h]
      · simp only [dset, if_neg h₀]
        by_cases h₁ : k₀ = k' <;> simp [dget, h₁, ih]

theorem dset_map_fst {κ α : Type} [DecidableEq κ] (m : List (κ × α)) (k : κ) (v : α) :
    (dset m k v).map Prod.fst =
      if (dget m k).isSome then m.map Prod.fst else m.map Prod.fst ++ [k] := by
  induction m with
  | nil => simp [dset, dget]
  | cons hd tl ih =>
      obtain ⟨k₀, v₀⟩ := hd
      by_cases h₀ : k₀ = k <;> simp [dset, dget, h₀, ih] <;> split <;> simp

theorem dget_eq_none {κ α : Type} [DecidableEq κ] (m : List (κ × α)) (k : κ) :
    dget m k = none ↔ k ∉ m.map Prod.fst := by
  induction m with
  | nil => simp [dget]
  | cons hd tl ih =>
      obtain ⟨k₀, v₀⟩ := hd
      by_cases h₀ : k₀ = k
      · subst h₀; simp [dget]
      · simp only [dget, if_neg h₀, List.map_cons, List.mem_cons, ih]
        constructor
        · rintro hnot (rfl | hmem)
          · exact h₀ rfl
          · exact hnot hmem
        · intro hnot hmem
          exact hnot (Or.inr hmem)

theorem dset_keys {κ α : Type} [DecidableEq κ] (m : List (κ × α)) (k : κ) (v : α)
    (h : (m.map Prod.fst).Nodup) : ((dset m k v).map Prod.fst).Nodup := by
  rw [dset_map_fst]
  split
  · exact h
  · rename_i hnone
    refine List.Nodup.append h (List.nodup_singleton k) ?_
    intro x hx hx'
    simp only [List.mem_singleton] at hx'
    subst hx'
    have : dget m x = none := by
      cases hg : dget m x with
      | none => rfl
      | some w => simp [hg] at hnone
    exact (dget_eq_none m x).mp this hx

theorem dget_mem {κ α : Type} [DecidableEq κ] (m : List (κ × α)) (k : κ) (v : α)
    (h : dget m k = some v) : (k, v) ∈ m := by
  induction m with
  | nil => simp [dget] at h
  | cons hd tl ih =>
      obtain ⟨k₀, v₀⟩ := hd
      by_cases h₀ : k₀ = k
      · subst h₀; simp [dget] at h; simp [h]
      · simp only [dget, if_neg h₀] at h
        exact List.mem_cons_of_mem _ (ih h)

theorem mem_dget {κ α : Type} [DecidableEq κ] (m : List (κ × α)) (k : κ) (v : α)
    (hnd : (m.map Prod.fst).Nodup) (h : (k, v) ∈ m) : dget m k = some v := by
  induction m with
  | nil => simp at h
  | cons hd tl ih =>
      obtain ⟨k₀, v₀⟩ := hd
      simp only [List.map_cons, List.nodup_cons] at hnd
      rcases List.mem_cons.mp h with h | h
      · obtain ⟨rfl, rfl⟩ := Prod.mk.injEq .. ▸ h
        simp [dget]
      · have hk : k₀ ≠ k := by
          rintro rfl
          exact hnd.1 (List.mem_map.mpr ⟨(k₀, v), h, rfl⟩)
        simp [dget, hk, ih hnd.2 h]

/-! ## Base64 (`base64.b64encode` / `base64.b64decode`)

Standard alphabet with `=` (byte 61) padding, modelled byte-to-byte. -/

/-- Code of the base64 alphabet character for a sextet. -/
def b64char (s : Nat) : Nat :=
  if s < 26 then 65 + s
  else if s < 52 then 97 + (s - 26)
  else if s < 62 then 48 + (s - 52)
  else if s = 62 then 43
  else 47

/-- Sextet value of a base64 alphabet character code. -/
def b64val (c : Nat) : Option Nat :=
  if 65 ≤ c ∧ c ≤ 90 then some (c - 65)
  else if 97 ≤ c ∧ c ≤ 122 then some (26 + (c - 97))
  else if 48 ≤ c ∧ c ≤ 57 then some (52 + (c - 48))
  else if c = 43 then some 62
  else if c = 47 then some 63
  else none

def b64encodeBytes : Bytes → Bytes
  | [] => []
  | [b1] => [b64char (b1 / 4), b64char (b1 % 4 * 16), 61, 61]
  | [b1, b2] => [b64char (b1 / 4), b64char (b1 % 4 * 16 + b2 / 16),
                 b64char (b2 % 16 * 4), 61]
  | b1 :: b2 :: b3 :: rest =>
      b64char (b1 / 4) :: b64char (b1 % 4 * 16 + b2 / 16) ::
      b64char (b2 % 16 * 4 + b3 / 64) :: b64char (b3 % 64) :: b64encodeBytes rest

def b64decodeBytes : Bytes → Option Bytes
  | [] => some []
  | c1 :: c2 :: c3 :: c4 :: rest =>
      match b64val c1, b64val c2 with
      | some s1, some s2 =>
          if c3 = 61 then
            if c4 = 61 ∧ rest = [] then some [s1 * 4 + s2 / 16] else none
          else
            match b64val c3 with
            | some s3 =>
                if c4 = 61 then
                  if rest = [] then some [s1 * 4 + s2 / 16, s2 % 16 * 16 + s3 / 4]
                  else none
                else
                  match b64val c4 with
                  | some s4 =>
                      (b64decodeBytes rest).map
                        (fun t => (s1 * 4 + s2 / 16) :: (s2 % 16 * 16 + s3 / 4) ::
                                  (s3 % 4 * 64 + s4) :: t)
                  | none => none
            | none => none
      | _, _ => none
  | _ => none

theorem b64val_b64char : ∀ s < 64, b64val (b64char s) = some s := by
  decide

theorem b64char_ne_61 (s : Nat) : b64char s ≠ 61 := by
  unfold b64char
  split
  · omega
  · split
    · omega
    · split
      · omega
      · split <;> omega

theorem b64_roundtrip_aux (n : Nat) : ∀ l : Bytes, l.length ≤ n →
    (∀ b ∈ l, b < 256) → b64decodeBytes (b64encodeBytes l) = some l := by
  induction n with
  | zero =>
      intro l hl _
      have : l = [] := List.length_eq_zero.mp (Nat.le_zero.mp hl)
      subst this
      rfl
  | succ n ih =>
      intro l hl hb
      match l with
      | [] => simp [b64encodeBytes, b64decodeBytes]
      | [b1] =>
          have h1 : b1 < 256 := hb b1 (by simp)
          simp only [b64encodeBytes, b64decodeBytes,
            b64val_b64char _ (by omega : b1 / 4 < 64),
            b64val_b64char _ (by omega : b1 % 4 * 16 < 64)]
          simp only [if_true, and_self, Option.some.injEq, List.cons.injEq, and_true]
          omega
      | [b1, b2] =>
          have h1 : b1 < 256 := hb b1 (by simp)
          have h2 : b2 < 256 := hb b2 (by simp)
          simp only [b64encodeBytes, b64decodeBytes,
            b64val_b64char _ (by omega : b1 / 4 < 64),
            b64val_b64char _ (by omega : b1 % 4 * 16 + b2 / 16 < 64),
            b64val_b64char _ (by omega : b2 % 16 * 4 < 64)]
          rw [if_neg (b64char_ne_61 _)]
          simp only [if_true, Option.some.injEq, List.cons.injEq, and_true]
          omega
      | b1 :: b2 :: b3 :: rest =>
          have h1 : b1 < 256 := hb b1 (by simp)
          have h2 : b2 < 256 := hb b2 (by simp)
          have h3 : b3 < 256 := hb b3 (by simp)
          have hrest : b64decodeBytes (b64encodeBytes rest) = some rest := by
            refine ih rest ?_ ?_
            · simp only [List.length_cons] at hl; omega
            · intro b hmem
              exact hb b (by simp [hmem])
          simp only [b64encodeBytes, b64decodeBytes,
            b64val_b64char _ (by omega : b1 / 4 < 64),
            b64val_b64char _ (by omega : b1 % 4 * 16 + b2 / 16 < 64),
            b64val_b64char _ (by omega : b2 % 16 * 4 + b3 / 64 < 64),
            b64val_b64char _ (by omega : b3 % 64 < 64)]
          rw [if_neg (b64char_ne_61 _), if_neg (b64char_ne_61 _), hrest]
          simp only [Option.map_some', Option.some.injEq, List.cons.injEq]
          refine ⟨by omega, by omega, by omega, trivial⟩

theorem b64_roundtrip (l : Bytes) (h : ∀ b ∈ l, b < 256) :
    b64decodeBytes (b64encodeBytes l) = some l :=
  b64_roundtrip_aux l.length l le_rfl h

/-! ## Security: nonce store, envelope codec, request verification (`app.py`)

`NONCE_STORE` is a dict whose values have two shapes in the source: the
header-verification path stores a dict of nonce and last-seen time,
while the `/api/upload` envelope path and `check_nonce` store the bare
integer nonce.  `NonceEntry` captures both shapes. -/

/-- The shared key `PRE_SHARED_KEY` / `PSK` = `bytes.fromhex("c41716a134168f52fbd4be3302fa5a88127ddde749501a199607b4c286ad29b3")`. -/
def PSK : Bytes :=
  [0xc4, 0x17, 0x16, 0xa1, 0x34, 0x16, 0x8f, 0x52,
   0xfb, 0xd4, 0xbe, 0x33, 0x02, 0xfa, 0x5a, 0x88,
   0x12, 0x7d, 0xdd, 0xe7, 0x49, 0x50, 0x1a, 0x19,
   0x96, 0x07, 0xb4, 0xc2, 0x86, 0xad, 0x29, 0xb3]

/-- Expiry window `NONCE_EXPIRY_SECONDS = 75`. -/
def NONCE_EXPIRY_SECONDS : ℚ := 75

/-- Debounce window `FLUSH_INTERVAL_SEC = 15`. -/
def FLUSH_INTERVAL_SEC : ℚ := 15

/-- One value of the `NONCE_STORE` dict. -/
inductive NonceEntry : Type
  /-- the dict of nonce and last-seen timestamp stored by `verify_request_security`. -/
  | full (nonce : Int) (timestamp : ℚ)
  /-- the bare integer as stored by the `/api/upload` envelope path and `check_nonce`. -/
  | raw (nonce : Int)
deriving DecidableEq, Repr

abbrev NonceStore := List (String × NonceEntry)

/-- Python truthiness of a `NONCE_STORE` value: a non-empty dict is truthy,
an `int` is truthy iff non-zero. -/
def NonceEntry.truthy : NonceEntry → Bool
  | .full _ _ => true
  | .raw n => n ≠ 0

/-- The secured envelope `{nonce, timestamp, encrypted, payload, mac}`.
The payload field holds the bytes of the (possibly base64-encoded) payload
string. -/
structure Envelope where
  nonce : Int
  timestamp : Int
  encrypted : Bool
  payload : Bytes
  mac : String
deriving DecidableEq, Repr

/-- The HMAC input used by `create_secured_response` and by the `/api/upload`
envelope check: decimal nonce, decimal timestamp, the flag rendered as 1 or 0,
and the payload string, concatenated in that order. -/
def macInput (nonce timestamp : Int) (encrypted : Bool) (payload : Bytes) : Bytes :=
  strBytes (toString nonce) ++ strBytes (toString timestamp) ++
    strBytes (if encrypted then "1" else "0") ++ payload

/-- The payload/MAC part of `create_secured_response` (lines 143-160), for a
given nonce, timestamp and encryption flag: base64-encode the serialized
payload when the flag is set, then MAC the four fields in order.
`create_secured_response` itself always passes `encrypted = true`. -/
def sealEnvelope (hmacFn : HmacFn) (nonce timestamp : Int) (encrypted : Bool)
    (payload : Bytes) : Envelope :=
  let payload_str := if encrypted then b64encodeBytes payload else payload
  { nonce := nonce, timestamp := timestamp, encrypted := encrypted,
    payload := payload_str,
    mac := hmacFn PSK (macInput nonce timestamp encrypted payload_str) }

/-- The outbound-nonce allocation of `create_secured_response` (lines 115-139),
acting on `SERVER_NONCE_COUNTER`.  `deviceEntry = none` models
`device_id=None`; `some e` models the `NONCE_STORE.get(device_id)` lookup
result.  Subscripting a bare-int store value raises in the source, modelled
as `.error`. -/
def allocServerNonce (counter : Int) (deviceEntry : Option (Option NonceEntry)) :
    Except String Int :=
  match deviceEntry with
  | some nonceData =>
      match nonceData with
      | some (.raw n) =>
          if n ≠ 0 then .error "TypeError: int object is not subscriptable"
          else .ok 1
      | some (.full device_last_nonce _) =>
          if device_last_nonce < 50 then .ok (max 1 (min 50 (device_last_nonce + 1)))
          else .ok (max counter (device_last_nonce + 1))
      | none => .ok 1
  | none => .ok (if counter > 50 then 1 else counter)

/-- Function `create_secured_response(payload_dict, device_id)`: allocate the outbound
nonce, stamp the time, seal with `encrypted = True`.  Returns the new
`SERVER_NONCE_COUNTER` and the envelope. -/
def create_secured_response (hmacFn : HmacFn) (counter : Int)
    (deviceEntry : Option (Option NonceEntry)) (now : Int) (payload : Bytes) :
    Except String (Int × Envelope) :=
  match allocServerNonce counter deviceEntry with
  | .error e => .error e
  | .ok c =>
      let nonce := c + 1
      .ok (nonce, sealEnvelope hmacFn nonce now true payload)

/-- Modelled from the spec: `Open(envelope) -> (payload, ok)` of §4.1 — the
device-side half of the Envelope Codec, which is not part of the server
source.  Recomputes the MAC over the same four fields in the same order,
and decodes the payload (base64 when the encrypted flag is set) only if the
MAC matches. -/
def openEnvelope (hmacFn : HmacFn) (env : Envelope) : Option Bytes :=
  if hmacFn PSK (macInput env.nonce env.timestamp env.encrypted env.payload) = env.mac
  then (if env.encrypted then b64decodeBytes env.payload else some env.payload)
  else none

/-- The `X-Nonce` / `X-Timestamp` / `X-MAC` request headers; `none` models an
absent header. -/
structure SecHeaders where
  nonce : Option String
  timestamp : Option String
  mac : Option String
deriving DecidableEq, Repr

/-- Outcome of `verify_request_security`: either `(True, None)` or
`(False, error_message)` keyed by the logged failure kind. -/
inductive VerifyOutcome : Type
  | ok
  | fail (kind : String)
deriving DecidableEq, Repr

/-- Python truthiness of an optional header string. -/
def headerTruthy : Option String → Bool
  | none => false
  | some s => s ≠ ""

/-- Accumulate decimal digits; fails on a non-digit or an empty string. -/
def digitsToNat (cs : List Char) : Option Nat :=
  if cs.isEmpty then none
  else cs.foldl
    (fun acc c =>
      match acc with
      | none => none
      | some n =>
          if 48 ≤ c.toNat ∧ c.toNat ≤ 57 then some (n * 10 + (c.toNat - 48)) else none)
    (some 0)

/-- Parsing `int(s)` on a header string: an optional sign followed by decimal digits;
anything else raises `ValueError` (modelled as `none`). -/
def parseIntStr (s : String) : Option Int :=
  match s.data with
  | '-' :: rest => (digitsToNat rest).map (fun n => -(n : Int))
  | cs => (digitsToNat cs).map (fun n => (n : Int))

/-- Function `verify_request_security(device_id)` (lines 162-216), with the globals
(`NONCE_STORE`, request headers/path, the clock) passed explicitly.
Security is enabled (`SECURITY_ENABLED = True`).  The result carries the
updated `NONCE_STORE`; a `TypeError` raised on a bare-int store value
(line 192 subscripts the value) is modelled as `.error`. -/
def verify_request_security (hmacFn : HmacFn) (store : NonceStore)
    (device_id path : String) (h : SecHeaders) (now : ℚ) :
    Except String (VerifyOutcome × NonceStore) :=
  if ¬(headerTruthy h.nonce ∧ headerTruthy h.timestamp ∧ headerTruthy h.mac) then
    .ok (.fail "missing_headers", store)
  else
    let nonceStr := h.nonce.getD ""
    let tsStr := h.timestamp.getD ""
    let macStr := h.mac.getD ""
    match parseIntStr nonceStr with
    | none => .ok (.fail "invalid_nonce", store)
    | some nonce_int =>
        let nonceData := dget store device_id
        let afterNonce : Except String (Option (VerifyOutcome × NonceStore) × NonceStore) :=
          match nonceData with
          | some entry =>
              if entry.truthy then
                match entry with
                | .raw _ => .error "TypeError: int object is not subscriptable"
                | .full last_nonce last_seen =>
                    if now - last_seen > NONCE_EXPIRY_SECONDS then
                      .ok (none, dpop store device_id)
                    else if nonce_int ≤ last_nonce then
                      .ok (some (.fail "replay_attack", store), store)
                    else
                      .ok (none, store)
              else .ok (none, store)
          | none => .ok (none, store)
        match afterNonce with
        | .error e => .error e
        | .ok (some earlyReturn, _) => .ok earlyReturn
        | .ok (none, store') =>
            let calculated_mac := hmacFn PSK (strBytes (path ++ nonceStr ++ tsStr))
            if calculated_mac ≠ macStr then
              .ok (.fail "hmac_failed", store')
            else
              .ok (.ok, dset store' device_id (.full nonce_int now))

/-- Outcome of the secured-envelope branch of `/api/upload` (lines 404-444). -/
inductive UploadAuthOutcome : Type
  /-- a 401 response (`hmac_failed` or `replay_attack`). -/
  | unauthorized (kind : String)
  /-- a 400 response: MAC and nonce passed but the payload was not valid base64. -/
  | badPayload
  /-- authenticated; carries the decoded binary payload. -/
  | accepted (payload : Bytes)
  /-- an exception inside the `try` was swallowed (line 442) and the request
  falls through to being treated as a plain legacy binary upload. -/
  | legacyFallthrough
deriving DecidableEq, Repr

/-- The envelope-authentication part of `upload()` (lines 404-444): verify the
MAC over `nonce + timestamp + encrypted + payload`, then check the nonce
against `NONCE_STORE.get(device_id, 0)` and store the bare accepted nonce.
Comparing the envelope nonce against a dict-shaped store value raises
`TypeError`, which the surrounding `try` swallows into the legacy path.
Returns the outcome and the resulting `NONCE_STORE`. -/
def uploadEnvelopeAuth (hmacFn : HmacFn) (store : NonceStore) (device_id : String)
    (env : Envelope) : UploadAuthOutcome × NonceStore :=
  let calculated_mac := hmacFn PSK (macInput env.nonce env.timestamp env.encrypted env.payload)
  if calculated_mac ≠ env.mac then (.unauthorized "hmac_failed", store)
  else
    match dget store device_id with
    | some (.full _ _) => (.legacyFallthrough, store)
    | entry =>
        let last_nonce : Int := match entry with | some (.raw n) => n | _ => 0
        if env.nonce ≤ last_nonce then (.unauthorized "replay_attack", store)
        else
          let store' := dset store device_id (.raw env.nonce)
          match b64decodeBytes env.payload with
          | some decoded => (.accepted decoded, store')
          | none => (.badPayload, store')

/-- Function `check_nonce(device_id, nonce)` (lines 1372-1380): the legacy helper used
by the command-polling path; also stores the bare integer nonce.  Comparing
against a dict-shaped value raises `TypeError`, modelled as `.error`. -/
def check_nonce (store : NonceStore) (device_id : String) (nonce : Int) :
    Except String (Bool × NonceStore) :=
  match dget store device_id with
  | some (.full _ _) => .error "TypeError: unsupported comparison int <= dict"
  | entry =>
      let last_nonce : Int := match entry with | some (.raw n) => n | _ => 0
      if nonce ≤ last_nonce then .ok (false, store)
      else .ok (true, dset store device_id (.raw nonce))

/-! ## Telemetry aggregator (`BUFFERS`, `_flush_device_unlocked`, `_flusher_loop`)

Telemetry values and timestamps are Python floats, modelled as rationals;
`round(x, k)` is modelled as exact rational rounding (the difference to
binary-float rounding is irrelevant at every input evaluated here). -/

/-- Rounding `round(x, k)` over rationals. -/
def roundTo (k : Nat) (q : ℚ) : ℚ := (round (q * 10 ^ k) : ℚ) / 10 ^ k

/-- One decoded telemetry sample `(timestamp, reg_addr, value)`. -/
structure Sample where
  timestamp : Nat
  reg_addr : Nat
  value : ℚ
deriving DecidableEq, Repr

/-- One entry of `BUFFERS`: per-register value lists (a dict in insertion
order), the received byte count, and the debounce baseline `last_seen`. -/
structure DeviceBuffer where
  reg_values : List (Nat × List ℚ)
  received_bytes : Nat
  last_seen : ℚ
deriving DecidableEq, Repr

abbrev Buffers := List (String × DeviceBuffer)

/-- One averaged output sample of a flush (`timestamp` is the flush time). -/
structure AvgSample where
  timestamp : Int
  reg_addr : Nat
  value : ℚ
deriving DecidableEq, Repr

/-- The flushed upload record plus the benchmark pushed downstream. -/
structure UploadRecord where
  device_id : String
  bytes : Nat
  samples : List AvgSample
  num_samples : Nat
  original_size : Nat
  compressed_size : Nat
  compression_rat : Option ℚ
  min_v : Option ℚ
  avg_v : Option ℚ
  max_v : Option ℚ
deriving DecidableEq, Repr

/-- Appending `buf["reg_values"].setdefault(reg, []).append(val)`. -/
def appendVal : List (Nat × List ℚ) → Nat → ℚ → List (Nat × List ℚ)
  | [], r, v => [(r, [v])]
  | (k, vs) :: rest, r, v =>
      if k = r then (k, vs ++ [v]) :: rest else (k, vs) :: appendVal rest r v

/-- Truthiness of `any(len(vals) for vals in reg_values.values())`. -/
def hasData (buf : DeviceBuffer) : Bool :=
  buf.reg_values.any (fun p => !p.2.isEmpty)

/-- Sorting `sorted(reg_values.items())` (dict keys are unique, so ordering by key
matches the Python tuple ordering). -/
def sortRegs (l : List (Nat × List ℚ)) : List (Nat × List ℚ) :=
  l.insertionSort (fun a b => a.1 ≤ b.1)

/-- Arithmetic mean of a value list. -/
def qmean (vals : List ℚ) : ℚ := vals.sum / vals.length

/-- Function `_flush_device_unlocked(device_id)` (lines 237-331): averages each
buffered values of each register, emits one record, and resets the buffer with
`last_seen = now`; with no buffered values it only normalizes the buffer,
keeping the old `last_seen`. -/
def _flush_device_unlocked (bufs : Buffers) (device_id : String) (now : ℚ) :
    Buffers × Option UploadRecord :=
  match dget bufs device_id with
  | none => (bufs, none)
  | some buf =>
      if ¬hasData buf then
        (dset bufs device_id
          { reg_values := [], received_bytes := 0, last_seen := buf.last_seen }, none)
      else
        let nonempty := (sortRegs buf.reg_values).filter (fun p => !p.2.isEmpty)
        let averaged := nonempty.map
          (fun p => AvgSample.mk ⌊now⌋ p.1 (roundTo 3 (qmean p.2)))
        let values_flat := (nonempty.map (fun p => p.2)).flatten
        let num_samples := averaged.length
        let original_size := num_samples * 4 * 3
        let compressed_size := buf.received_bytes
        let record : UploadRecord :=
          { device_id := device_id
            bytes := buf.received_bytes
            samples := averaged
            num_samples := num_samples
            original_size := original_size
            compressed_size := compressed_size
            compression_rat :=
              if compressed_size > 0
              then some (roundTo 2 (original_size / (compressed_size : ℚ)))
              else none
            min_v := values_flat.min?
            avg_v := if values_flat.isEmpty then none
                     else some (roundTo 2 (qmean values_flat))
            max_v := values_flat.max? }
        (dset bufs device_id { reg_values := [], received_bytes := 0, last_seen := now },
         some record)

/-- The buffer-accumulation part of `upload()` (lines 459-474): append each
value of each decoded sample to the per-register list of the device, add the payload
size, and reset the debounce baseline `last_seen` to now. -/
def uploadIngest (bufs : Buffers) (device_id : String) (samples : List Sample)
    (payload_len : Nat) (now : ℚ) : Buffers :=
  let buf0 := (dget bufs device_id).getD
    { reg_values := [], received_bytes := 0, last_seen := now }
  let buf1 := samples.foldl
    (fun b s => { b with reg_values := appendVal b.reg_values s.reg_addr s.value }) buf0
  dset bufs device_id
    { buf1 with received_bytes := buf1.received_bytes + payload_len, last_seen := now }

/-- The loop body of the sweep in `_flusher_loop`: one snapshot item `p`; flush
its device when it has data and has been inactive for at least
`FLUSH_INTERVAL_SEC`. -/
def sweepVisit (now : ℚ) (acc : Buffers × List UploadRecord)
    (p : String × DeviceBuffer) : Buffers × List UploadRecord :=
  if hasData p.2 ∧ now - p.2.last_seen ≥ FLUSH_INTERVAL_SEC then
    let r := _flush_device_unlocked acc.1 p.1 now
    (r.1, acc.2 ++ r.2.toList)
  else acc

/-- One one-second sweep of `_flusher_loop` (lines 333-350): snapshot the
buffer table, and flush every device that has data and has been inactive
for at least `FLUSH_INTERVAL_SEC`. -/
def sweepStep (bufs : Buffers) (now : ℚ) : Buffers × List UploadRecord :=
  bufs.foldl (sweepVisit now) (bufs, [])

/-- An event of the aggregator step relation: the buffer accumulation of an
authenticated upload, or one scheduler sweep. -/
inductive AggEvent : Type
  | ingest (device_id : String) (samples : List Sample) (payload_len : Nat) (t : ℚ)
  | sweep (t : ℚ)
deriving DecidableEq, Repr

def AggEvent.time : AggEvent → ℚ
  | .ingest _ _ _ t => t
  | .sweep t => t

def aggStep (bufs : Buffers) : AggEvent → Buffers × List UploadRecord
  | .ingest d samples len t => (uploadIngest bufs d samples len t, [])
  | .sweep t => sweepStep bufs t

def runAgg (bufs : Buffers) : List AggEvent → Buffers × List UploadRecord
  | [] => (bufs, [])
  | e :: rest =>
      let r := aggStep bufs e
      let r' := runAgg r.1 rest
      (r'.1, r.2 ++ r'.2)

/-! ## Firmware distribution (`FIRMWARE_MANIFEST`, `FIRMWARE_CHUNKS`, `FOTA_STATUS`) -/

/-- The single active `FIRMWARE_MANIFEST`. -/
structure Manifest where
  version : String
  size : Int
  hash : String
  chunk_size : Nat
  uploaded_at : String
deriving DecidableEq, Repr

/-- One entry of `FIRMWARE_CHUNKS`. -/
structure Chunk where
  chunk_number : Nat
  data : Bytes
  mac : String
  size : Nat
deriving DecidableEq, Repr

/-- The firmware distribution state: the single active manifest and the chunk
table. -/
structure FirmwareState where
  manifest : Option Manifest
  chunks : List (Nat × Chunk)
deriving DecidableEq, Repr

/-- The `/api/cloud/fota/upload` request body. -/
structure FwUploadReq where
  version : Option String
  size : Option Int
  hash : Option String
  chunk_size : Option Nat
  firmware_data : Option Bytes
deriving DecidableEq, Repr

/-- Outcome of `upload_firmware`. -/
inductive FwUploadOutcome : Type
  | missingFields
  | badBase64
  | hashMismatch
  | success (total_chunks : Nat)
deriving DecidableEq, Repr

/-- Python truthiness of the four required fields checked by
`if not all([version, size, fw_hash, firmware_data_b64])`. -/
def fwFieldsTruthy (req : FwUploadReq) : Bool :=
  (match req.version with | some v => v ≠ "" | none => false) &&
  (match req.size with | some s => s ≠ 0 | none => false) &&
  (match req.hash with | some h => h ≠ "" | none => false) &&
  (match req.firmware_data with | some d => !d.isEmpty | none => false)

/-- Build the chunk table: slice the image into `chunk_size`-byte pieces, each
tagged with `HMAC-SHA256(PRE_SHARED_KEY, raw_chunk_bytes)`. -/
def buildChunks (hmacFn : HmacFn) (firmware_data : Bytes) (chunk_size : Nat) :
    List (Nat × Chunk) :=
  let num_chunks := (firmware_data.length + chunk_size - 1) / chunk_size
  (List.range num_chunks).map (fun i =>
    let chunk_data := (firmware_data.drop (i * chunk_size)).take chunk_size
    (i, { chunk_number := i
          data := b64encodeBytes chunk_data
          mac := hmacFn PSK chunk_data
          size := chunk_data.length }))

/-- Endpoint `upload_firmware()` (lines 983-1059): validate fields, base64-decode the
image, recompute SHA-256 and compare with the declared hash; only on
success replace the manifest and rebuild the chunk table. -/
def upload_firmware (shaFn : ShaFn) (hmacFn : HmacFn) (st : FirmwareState)
    (req : FwUploadReq) (nowIso : String) : FwUploadOutcome × FirmwareState :=
  if ¬fwFieldsTruthy req then (.missingFields, st)
  else
    match b64decodeBytes (req.firmware_data.getD []) with
    | none => (.badBase64, st)
    | some firmware_data =>
        let fw_hash := req.hash.getD ""
        if shaFn firmware_data ≠ fw_hash then (.hashMismatch, st)
        else
          let chunk_size := req.chunk_size.getD 1024
          let manifest : Manifest :=
            { version := req.version.getD ""
              size := req.size.getD 0
              hash := fw_hash
              chunk_size := chunk_size
              uploaded_at := nowIso }
          let chunks := buildChunks hmacFn firmware_data chunk_size
          (.success chunks.length, { manifest := some manifest, chunks := chunks })

/-- One value of the `FOTA_STATUS` dict.  Absent dict keys are `none` /
`false` (matching `.get` defaults in the source). -/
structure FotaEntry where
  chunk_received : Option Int := none
  verified : Option Bool := none
  boot_status : Option String := none
  rollback : Bool := false
  error : Option String := none
  last_update : Option String := none
  rollback_requested : Bool := false
  rollback_reason : Option String := none
  rollback_timestamp : Option String := none
deriving DecidableEq, Repr

abbrev FotaStatusStore := List (String × FotaEntry)

/-- The `fota_status` object of a device status report. -/
structure FotaReport where
  chunk_received : Option Int := none
  verified : Option Bool := none
  boot_status : Option String := none
  rollback : Bool := false
  error : Option String := none
deriving DecidableEq, Repr

/-- A structured FOTA log line (`log_fota_event`), keeping the quantities the
human-readable detail string is built from. -/
inductive FotaLogEvent : Type
  | chunk_received (chunk : Int) (total_chunks : Nat) (progress : ℚ)
  | firmware_verified
  | verification_failed (error : Option String)
  | rollback_triggered (reason : Option String)
  | boot_status (s : String)
  | fota_completed
  | boot_failed
  | rollback_requested (device_id : String) (reason : String)
deriving DecidableEq, Repr

/-- Endpoint `receive_fota_status()` (lines 1084-1136): wholesale-replaces the per-device
`FOTA_STATUS` entry with the report fields (any `rollback_requested`
flag in the old entry is dropped), and logs a progress line with
`(chunk_received + 1) / total_chunks * 100` when a chunk is acknowledged. -/
def receive_fota_status (st : FotaStatusStore) (chunks : List (Nat × Chunk))
    (device_id : String) (r : FotaReport) (nowIso : String) :
    FotaStatusStore × List FotaLogEvent :=
  let entry : FotaEntry :=
    { chunk_received := r.chunk_received
      verified := r.verified
      boot_status := r.boot_status
      rollback := r.rollback
      error := r.error
      last_update := some nowIso }
  let st' := dset st device_id entry
  let logs1 : List FotaLogEvent :=
    match r.chunk_received with
    | some c =>
        let total_chunks := chunks.length
        let progress : ℚ :=
          if total_chunks > 0 then (c + 1) / (total_chunks : ℚ) * 100 else 0
        [.chunk_received c total_chunks progress]
    | none => []
  let logs2 : List FotaLogEvent :=
    match r.verified with
    | some true => [.firmware_verified]
    | some false => [.verification_failed r.error]
    | none => []
  let logs3 : List FotaLogEvent :=
    if r.rollback then [.rollback_triggered r.error] else []
  let logs4 : List FotaLogEvent :=
    match r.boot_status with
    | some s =>
        if s ≠ "" then
          [.boot_status s] ++
          (if s = "success" then [.fota_completed]
           else if s = "failed" then [.boot_failed] else [])
        else []
    | none => []
  (st', logs1 ++ logs2 ++ logs3 ++ logs4)

/-- Endpoint `trigger_fota_rollback()` (lines 1149-1190): `device_id` defaults to
`"all"`, the reason to `"Manual rollback requested"`; ensures an entry
exists under exactly that key and sets the one-shot flag, reason and
timestamp on it. -/
def trigger_fota_rollback (st : FotaStatusStore) (device_id : Option String)
    (reason : Option String) (nowIso : String) : FotaStatusStore × FotaLogEvent :=
  let d := device_id.getD "all"
  let r := reason.getD "Manual rollback requested"
  let entry := (dget st d).getD {}
  (dset st d { entry with rollback_requested := true, rollback_reason := some r,
                          rollback_timestamp := some nowIso },
   .rollback_requested d r)

/-- The body of the `/api/inverter/fota/rollback-status` response. -/
structure RollbackResp where
  rollback_required : Bool
  reason : Option String
deriving DecidableEq, Repr

/-- Endpoint `check_rollback_status()` (lines 1192-1214): if the entry of the device has the
one-shot flag set, clear it and return it with the stored reason
(defaulting to `"Unknown"`); otherwise report `false`. -/
def check_rollback_status (st : FotaStatusStore) (device_id : String) :
    RollbackResp × FotaStatusStore :=
  match dget st device_id with
  | some entry =>
      if entry.rollback_requested then
        ({ rollback_required := true,
           reason := some (entry.rollback_reason.getD "Unknown") },
         dset st device_id { entry with rollback_requested := false })
      else ({ rollback_required := false, reason := none }, st)
  | none => ({ rollback_required := false, reason := none }, st)

/-! ## Helpers for statements and witnesses -/

/-- A concrete digest function used to instantiate the abstract HMAC/SHA
parameters in closed evaluations. -/
def constDigest (s : String) : HmacFn := fun _ _ => s

/-- Whether a device currently has the one-shot rollback flag set. -/
def wouldRollback (st : FotaStatusStore) (device_id : String) : Bool :=
  match dget st device_id with
  | some e => e.rollback_requested
  | none => false

/-- The `last_seen` debounce baseline of a per-device buffer, when present. -/
def getLastSeen (bufs : Buffers) (d : String) : Option ℚ :=
  (dget bufs d).map (fun b => b.last_seen)

/-! ## C3: expiry discards nonce state, then any nonce is accepted -/

/-- C3.  For a device whose stored session is a header-path entry older than
the 75-second expiry window, `verify_request_security` discards the stored
nonce state and, given a valid MAC, accepts the next nonce `n` with no
constraint against the previously stored `last` (in particular `n ≤ last`
is accepted), storing `(n, now)`. -/
theorem expired_session_accepts_smaller_nonce
    (hmacFn : HmacFn) (store : NonceStore) (d path nonceStr tsStr : String)
    (n last : Int) (lastSeen now : ℚ)
    (hstore : dget store d = some (.full last lastSeen))
    (hexp : now - lastSeen > NONCE_EXPIRY_SECONDS)
    (hn : parseIntStr nonceStr = some n)
    (hne : nonceStr ≠ "") (htne : tsStr ≠ "")
    (hmne : hmacFn PSK (strBytes (path ++ nonceStr ++ tsStr)) ≠ "") :
    verify_request_security hmacFn store d path
      ⟨some nonceStr, some tsStr, some (hmacFn PSK (strBytes (path ++ nonceStr ++ tsStr)))⟩ now
      = .ok (.ok, dset (dpop store d) d (.full n now)) := by
  simp only [verify_request_security, headerTruthy, hn, hstore,
    NonceEntry.truthy, Option.getD_some]
  simp only [ne_eq, not_false_eq_true, and_self, not_true_eq_false, if_false,
    if_pos hexp, ite_not, if_true]
  simp [hexp, hne, htne, hmne]

/-- C3 witness: a session last seen 100 seconds ago accepts nonce 3 after
having stored nonce 10. -/
theorem expired_session_accepts_smaller_nonce_witness :
    verify_request_security (constDigest "d") [("EcoWatt001", .full 10 0)]
      "EcoWatt001" "/api/inverter/config" ⟨some "3", some "100", some "d"⟩ 100
      = .ok (.ok, [("EcoWatt001", .full 3 100)]) := by
  have h := expired_session_accepts_smaller_nonce (constDigest "d")
    [("EcoWatt001", .full 10 0)] "EcoWatt001" "/api/inverter/config" "3" "100"
    3 10 0 100 (by rfl) (by norm_num [NONCE_EXPIRY_SECONDS]) (by decide)
    (by decide) (by decide) (by decide)
  exact h

/-! ## C2: the authentication check can raise on a mixed session registry -/

/-- C2 (code bug).  With a session-registry state produced by an
envelope-authenticated upload (`NONCE_STORE[d]` a bare int), the
header-authentication check raises a `TypeError` while subscripting the
stored value instead of returning a failure result. -/
theorem mixed_store_header_check_raises :
    verify_request_security (constDigest "m") [("EcoWatt001", .raw 6)]
      "EcoWatt001" "/api/inverter/config" ⟨some "7", some "100", some "m"⟩ 100
      = .error "TypeError: int object is not subscriptable" := by
  rfl

/-! ## C1: what the upload path stores on acceptance -/

/-- C1 (code bug).  An accepted envelope-authenticated upload stores the bare
nonce `6` in the session registry — not the `(nonce, now)` pair the
header path stores (and which line 105 of the source documents). -/
theorem upload_path_stores_bare_nonce :
    uploadEnvelopeAuth (constDigest "m") [] "EcoWatt001"
      { nonce := 6, timestamp := 100, encrypted := true,
        payload := b64encodeBytes [104, 105], mac := "m" }
      = (.accepted [104, 105], [("EcoWatt001", .raw 6)]) ∧
    NonceEntry.raw 6 ≠ NonceEntry.full 6 100 := by
  constructor
  · decide
  · decide

/-! ## C7: firmware hash mismatch leaves the firmware state untouched -/

/-- C7.  When the recomputed SHA-256 of the decoded image differs from the
declared hash, `upload_firmware` returns the hash-mismatch error and the
firmware state (manifest and chunk table) is exactly the previous one. -/
theorem fw_hash_mismatch_keeps_state
    (shaFn : ShaFn) (hmacFn : HmacFn) (st : FirmwareState) (req : FwUploadReq)
    (nowIso : String) (data : Bytes)
    (hfields : fwFieldsTruthy req = true)
    (hdec : b64decodeBytes (req.firmware_data.getD []) = some data)
    (hmismatch : shaFn data ≠ req.hash.getD "") :
    upload_firmware shaFn hmacFn st req nowIso = (.hashMismatch, st) := by
  simp [upload_firmware, hfields, hdec, hmismatch]

/-- C7 witness: uploading a 3-byte image whose declared hash is "BB" while the
digest stub yields "AA" leaves a populated firmware state unchanged. -/
theorem fw_hash_mismatch_keeps_state_witness :
    upload_firmware (fun _ => "AA") (constDigest "t")
      { manifest := some { version := "v0", size := 9, hash := "old",
                           chunk_size := 4, uploaded_at := "T0" },
        chunks := [(0, { chunk_number := 0, data := [65], mac := "t", size := 1 })] }
      { version := some "v1", size := some 3, hash := some "BB",
        chunk_size := some 2, firmware_data := some (b64encodeBytes [1, 2, 3]) }
      "T1"
      = (.hashMismatch,
         { manifest := some { version := "v0", size := 9, hash := "old",
                              chunk_size := 4, uploaded_at := "T0" },
           chunks := [(0, { chunk_number := 0, data := [65], mac := "t", size := 1 })] }) := by
  exact fw_hash_mismatch_keeps_state (fun _ => "AA") (constDigest "t") _ _ "T1"
    [1, 2, 3] (by decide) (by decide) (by decide)

/-! ## C8: the rollback flag is one-shot -/

/-- C8 amended.  `CheckRollback` right after `RequestRollback(d, reason)`
returns `true` with the stored reason and clears the flag; a repeated call
returns `false` and changes nothing; requests and polls for other device
ids leave the entry of `d` alone.  (A FOTA status report from `d` would replace
the entry and drop an unconsumed flag — see the counterexample.) -/
theorem rollback_flag_one_shot (st other : FotaStatusStore) (d reason nowIso : String) :
    ((check_rollback_status (trigger_fota_rollback st (some d) (some reason) nowIso).1 d).1
       = { rollback_required := true, reason := some reason })
    ∧ (check_rollback_status
         (check_rollback_status (trigger_fota_rollback st (some d) (some reason) nowIso).1 d).2 d
       = ({ rollback_required := false, reason := none },
          (check_rollback_status (trigger_fota_rollback st (some d) (some reason) nowIso).1 d).2))
    ∧ (∀ d' r' n', d' ≠ d →
        dget (trigger_fota_rollback other (some d') r' n').1 d = dget other d)
    ∧ (∀ d', d' ≠ d → dget (check_rollback_status other d').2 d = dget other d) := by
  refine ⟨?_, ?_, ?_, ?_⟩
  · simp [trigger_fota_rollback, check_rollback_status, dget_dset_self]
  · simp [trigger_fota_rollback, check_rollback_status, dget_dset_self]
  · intro d' r' n' hne
    simp only [trigger_fota_rollback]
    exact dget_dset_ne _ _ _ _ hne
  · intro d' hne
    simp only [check_rollback_status]
    cases hget : dget other d' with
    | none => simp
    | some entry =>
        by_cases hflag : entry.rollback_requested
        · simp only [hflag, if_true]
          exact dget_dset_ne _ _ _ _ hne
        · simp [hflag]

/-- C8 witness: the one-shot behavior evaluated on a concrete store. -/
theorem rollback_flag_one_shot_witness :
    ((check_rollback_status
        (trigger_fota_rollback [] (some "EcoWatt001") (some "bad fw") "T1").1 "EcoWatt001").1
      = { rollback_required := true, reason := some "bad fw" }) ∧
    dget (trigger_fota_rollback [("EcoWatt001", {})] (some "EcoWatt002") none "T2").1 "EcoWatt001"
      = dget [("EcoWatt001", ({} : FotaEntry))] "EcoWatt001" :=
  ⟨(rollback_flag_one_shot [] [] "EcoWatt001" "bad fw" "T1").1,
   (rollback_flag_one_shot [] [("EcoWatt001", {})] "EcoWatt001" "bad fw" "T1").2.2.1
     "EcoWatt002" none "T2" (by decide)⟩

/-- C8 counterexample.  After `RequestRollback("EcoWatt001")`, a FOTA status
report from the device (not a poll) replaces its entry and drops the
unconsumed flag: the next `CheckRollback` returns `false`, so the flag did
not persist even though the device never polled. -/
theorem status_report_drops_rollback_flag :
    (check_rollback_status
      (receive_fota_status
        (trigger_fota_rollback [] (some "EcoWatt001") (some "bad fw") "T1").1
        [] "EcoWatt001" {} "T2").1
      "EcoWatt001").1.rollback_required = false := by
  decide

/-! ## C9: FOTA progress logging -/

/-- C9 counterexample.  With 2 chunks total and `chunkReceived = 0`, the
progress the code logs is `50%`, not `chunkReceived / totalChunks`
expressed as a percentage (which would be `0%`). -/
theorem fota_progress_not_claimed_formula :
    (receive_fota_status [] [(0, { chunk_number := 0, data := [65], mac := "t", size := 1 }),
                             (1, { chunk_number := 1, data := [66], mac := "t", size := 1 })]
      "EcoWatt001" { chunk_received := some 0 } "T1").2
      = [.chunk_received 0 2 50] ∧ (50 : ℚ) ≠ (0 : ℚ) / 2 * 100 := by
  constructor
  · simp only [receive_fota_status, FotaLogEvent.chunk_received.injEq]
    norm_num
  · norm_num

/-- C9 amended.  For a status report with `chunkReceived = c` and a non-empty
chunk table of size `total`, the logged progress is
`(c + 1) / total * 100`, and the report is stored (wholesale) as the
device's `FOTA_STATUS` entry stamped with the receive time. -/
theorem fota_progress_plus_one (st : FotaStatusStore) (chunks : List (Nat × Chunk))
    (d nowIso : String) (r : FotaReport) (c : Int)
    (hc : r.chunk_received = some c) (hnz : chunks.length ≠ 0) :
    (receive_fota_status st chunks d r nowIso).2.head?
      = some (.chunk_received c chunks.length ((c + 1) / (chunks.length : ℚ) * 100))
    ∧ dget (receive_fota_status st chunks d r nowIso).1 d
      = some { chunk_received := r.chunk_received, verified := r.verified,
               boot_status := r.boot_status, rollback := r.rollback,
               error := r.error, last_update := some nowIso } := by
  constructor
  · simp [receive_fota_status, hc, Nat.pos_of_ne_zero hnz]
  · simp only [receive_fota_status]
    exact dget_dset_self ..

/-- C9 witness: chunk 3 of 8 logs 50% progress. -/
theorem fota_progress_plus_one_witness :
    (receive_fota_status [] (buildChunks (constDigest "t") (List.replicate 16 7) 2)
      "EcoWatt001" { chunk_received := some 3 } "T1").2.head?
      = some (.chunk_received 3 8 ((3 + 1) / (8 : ℚ) * 100)) :=
  (fota_progress_plus_one [] (buildChunks (constDigest "t") (List.replicate 16 7) 2)
    "EcoWatt001" "T1" { chunk_received := some 3 } 3 rfl (by decide)).1

/-! ## C10: a rollback request for "all" touches only the literal key "all" -/

/-- C10.  `RequestRollback("all")` writes only under the registry key
`"all"`: any other device id's entry is unchanged, and its next
`CheckRollback` still reports exactly its own pre-existing flag. -/
theorem rollback_all_only_key_all (st : FotaStatusStore) (reason : Option String)
    (nowIso : String) (d : String) (hd : d ≠ "all") :
    dget (trigger_fota_rollback st (some "all") reason nowIso).1 d = dget st d
    ∧ (check_rollback_status (trigger_fota_rollback st (some "all") reason nowIso).1 d).1.rollback_required
      = wouldRollback st d := by
  have hkey : dget (trigger_fota_rollback st (some "all") reason nowIso).1 d = dget st d := by
    simp only [trigger_fota_rollback]
    exact dget_dset_ne _ _ _ _ (fun h => hd h.symm)
  refine ⟨hkey, ?_⟩
  simp only [check_rollback_status, wouldRollback, hkey]
  cases dget st d with
  | none => rfl
  | some entry =>
      by_cases hflag : entry.rollback_requested <;> simp [hflag]

/-- C10 witness: after `RequestRollback("all")`, `CheckRollback("EcoWatt001")`
still reports `false`. -/
theorem rollback_all_only_key_all_witness :
    dget (trigger_fota_rollback [] (some "all") (some "r") "T1").1 "EcoWatt001"
      = dget ([] : FotaStatusStore) "EcoWatt001"
    ∧ (check_rollback_status (trigger_fota_rollback [] (some "all") (some "r") "T1").1
        "EcoWatt001").1.rollback_required = wouldRollback [] "EcoWatt001" :=
  rollback_all_only_key_all [] (some "r") "T1" "EcoWatt001" (by decide)

/-! ## C4: Seal/Open round trip -/

theorem open_seal (hmacFn : HmacFn) (n t : Int) (e : Bool) (p : Bytes)
    (hp : ∀ b ∈ p, b < 256) :
    openEnvelope hmacFn (sealEnvelope hmacFn n t e p) = some p := by
  cases e with
  | false => simp [openEnvelope, sealEnvelope]
  | true => simp [openEnvelope, sealEnvelope, b64_roundtrip p hp]

/-- C4.  For every payload (a byte string) and every value of the encryption
flag, the envelope the codec of `create_secured_response` seals verifies
and round-trips under the `Open` of the spec: the MAC is the keyed digest of
the decimal nonce, decimal timestamp, the flag rendered as 1 or 0, and the
encoded payload, concatenated in that order,
and decoding the payload field (base64 when the flag is set) recovers the
original payload; in particular every envelope `create_secured_response`
itself produces (always with `encrypted = True`) opens back to its
payload. -/
theorem seal_open_roundtrip (hmacFn : HmacFn) (nonce timestamp : Int)
    (encrypted : Bool) (payload : Bytes) (hp : ∀ b ∈ payload, b < 256) :
    openEnvelope hmacFn (sealEnvelope hmacFn nonce timestamp encrypted payload)
      = some payload
    ∧ (sealEnvelope hmacFn nonce timestamp encrypted payload).mac
      = hmacFn PSK (macInput nonce timestamp encrypted
          (if encrypted then b64encodeBytes payload else payload))
    ∧ (∀ counter deviceEntry now c env,
        create_secured_response hmacFn counter deviceEntry now payload = .ok (c, env) →
        openEnvelope hmacFn env = some payload) := by
  refine ⟨open_seal hmacFn nonce timestamp encrypted payload hp, rfl, ?_⟩
  intro counter deviceEntry now c env h
  rw [create_secured_response] at h
  cases halloc : allocServerNonce counter deviceEntry with
  | error e => rw [halloc] at h; exact absurd h (by simp)
  | ok c0 =>
      rw [halloc] at h
      simp only [Except.ok.injEq, Prod.mk.injEq] at h
      rw [← h.2]
      exact open_seal hmacFn (c0 + 1) now true payload hp

/-- C4 witness: a two-byte payload round-trips under both flag values and
through `create_secured_response`. -/
theorem seal_open_roundtrip_witness :
    openEnvelope (constDigest "x") (sealEnvelope (constDigest "x") 1 2 true [104, 105])
      = some [104, 105]
    ∧ openEnvelope (constDigest "x") (sealEnvelope (constDigest "x") 1 2 false [104, 105])
      = some [104, 105] :=
  ⟨(seal_open_roundtrip (constDigest "x") 1 2 true [104, 105] (by decide)).1,
   (seal_open_roundtrip (constDigest "x") 1 2 false [104, 105] (by decide)).1⟩

/-! ## C5: one averaged record per register -/

theorem filter_key_nonempty_singleton (m : List (Nat × List ℚ)) (r : Nat) (vs : List ℚ)
    (hnd : (m.map Prod.fst).Nodup) (h : dget m r = some vs) (hvs : vs ≠ []) :
    m.filter (fun p => decide (p.1 = r) && !p.2.isEmpty) = [(r, vs)] := by
  induction m with
  | nil => simp [dget] at h
  | cons hd tl ih =>
      obtain ⟨k, w⟩ := hd
      simp only [List.map_cons, List.nodup_cons] at hnd
      by_cases hk : k = r
      · subst hk
        have hw : w = vs := by simpa [dget] using h
        subst hw
        have htl : tl.filter (fun p => decide (p.1 = k) && !p.2.isEmpty) = [] := by
          rw [List.filter_eq_nil_iff]
          intro a ha
          have : a.1 ≠ k := by
            rintro rfl
            exact hnd.1 (List.mem_map.mpr ⟨a, ha, rfl⟩)
          simp [this]
        simp [List.filter_cons, hvs, htl]
      · simp only [dget, if_neg hk] at h
        have hpred : (decide ((k, w).1 = r) && !(k, w).2.isEmpty) = false := by
          simp [hk]
        simp [List.filter_cons, hpred, ih hnd.2 h]

/-- C5.  A flush emits, for every register `r` holding a non-empty value list
`vs`, exactly one averaged sample — register `r`, value the arithmetic
mean of `vs` rounded to 3 decimals, timestamped with the flush time; and
concretely, ingesting `[(t0,5,12.0),(t0+1,5,14.0)]` then flushing yields
exactly one sample, for register 5 with value `13.0`. -/
theorem flush_averages_per_register :
    (∀ (bufs : Buffers) (d : String) (now : ℚ) (buf : DeviceBuffer) (r : Nat) (vs : List ℚ),
      dget bufs d = some buf →
      (buf.reg_values.map Prod.fst).Nodup →
      dget buf.reg_values r = some vs → vs ≠ [] →
      ∃ rec, (_flush_device_unlocked bufs d now).2 = some rec ∧
        rec.samples.filter (fun s => decide (s.reg_addr = r))
          = [{ timestamp := ⌊now⌋, reg_addr := r, value := roundTo 3 (qmean vs) }])
    ∧ ((_flush_device_unlocked
          (uploadIngest [] "EcoWatt001"
            [{ timestamp := 1000, reg_addr := 5, value := 12 },
             { timestamp := 1001, reg_addr := 5, value := 14 }] 18 0)
          "EcoWatt001" 30).2.map UploadRecord.samples
        = some [{ timestamp := 30, reg_addr := 5, value := 13 }]) := by
  constructor
  · intro bufs d now buf r vs hget hnd hr hvs
    have hmem : (r, vs) ∈ buf.reg_values := dget_mem _ _ _ hr
    have hdata : hasData buf = true :=
      List.any_eq_true.mpr ⟨(r, vs), hmem, by simp [hvs]⟩
    simp only [_flush_device_unlocked, hget, hdata, not_true_eq_false, if_false,
      Bool.true_eq_false]
    refine ⟨_, rfl, ?_⟩
    simp only [List.filter_map]
    have hcomp : ((fun s => decide (s.reg_addr = r)) ∘
        (fun p : Nat × List ℚ => AvgSample.mk ⌊now⌋ p.1 (roundTo 3 (qmean p.2))))
        = fun p : Nat × List ℚ => decide (p.1 = r) := rfl
    rw [hcomp, List.filter_filter]
    have hperm : ((sortRegs buf.reg_values).filter
          (fun p => decide (p.1 = r) && !p.2.isEmpty)).Perm
        (buf.reg_values.filter (fun p => decide (p.1 = r) && !p.2.isEmpty)) :=
      List.Perm.filter _ (List.perm_insertionSort _ _)
    have hfilter : (sortRegs buf.reg_values).filter
        (fun p => decide (p.1 = r) && !p.2.isEmpty) = [(r, vs)] := by
      refine List.perm_singleton.mp ?_
      rw [filter_key_nonempty_singleton buf.reg_values r vs hnd hr hvs] at hperm
      exact hperm
    rw [hfilter]
    rfl
  · norm_num [uploadIngest, _flush_device_unlocked, dget, dset, appendVal, hasData,
      sortRegs, List.insertionSort, List.orderedInsert, qmean, roundTo, round_eq]

/-- C5 witness: the general statement evaluated on a buffer holding
`[12, 14]` for register 5. -/
theorem flush_averages_per_register_witness :
    ∃ rec, (_flush_device_unlocked
        [("dev", { reg_values := [(5, [12, 14])], received_bytes := 18, last_seen := 0 })]
        "dev" 20).2 = some rec ∧
      rec.samples.filter (fun s => decide (s.reg_addr = 5))
        = [{ timestamp := ⌊(20 : ℚ)⌋, reg_addr := 5, value := roundTo 3 (qmean [12, 14]) }] :=
  flush_averages_per_register.1 _ "dev" 20 _ 5 [12, 14] rfl (by decide) rfl (by simp)

/-! ## C6: no flush within the debounce window -/

/-- A device's buffer (when present) was last active no earlier than `t0`. -/
def SeenAfter (t0 : ℚ) (d : String) (bufs : Buffers) : Prop :=
  ∀ b, dget bufs d = some b → t0 ≤ b.last_seen

theorem flush_dget_other (bufs : Buffers) (d' : String) (t : ℚ) (d : String)
    (hne : d' ≠ d) :
    dget (_flush_device_unlocked bufs d' t).1 d = dget bufs d := by
  unfold _flush_device_unlocked
  cases hget : dget bufs d' with
  | none => rfl
  | some buf =>
      cases hdata : hasData buf with
      | false => simp only [hdata, Bool.false_eq_true, not_false_eq_true, if_true]
                 exact dget_dset_ne _ _ _ _ hne
      | true => simp only [hdata, not_true_eq_false, if_false]
                exact dget_dset_ne _ _ _ _ hne

theorem flush_keys_nodup (bufs : Buffers) (d' : String) (t : ℚ)
    (h : (bufs.map Prod.fst).Nodup) :
    (((_flush_device_unlocked bufs d' t).1).map Prod.fst).Nodup := by
  unfold _flush_device_unlocked
  cases hget : dget bufs d' with
  | none => exact h
  | some buf =>
      cases hdata : hasData buf with
      | false => simp only [hdata, Bool.false_eq_true, not_false_eq_true, if_true]
                 exact dset_keys _ _ _ h
      | true => simp only [hdata, not_true_eq_false, if_false]
                exact dset_keys _ _ _ h

theorem flush_record_device (bufs : Buffers) (d' : String) (t : ℚ) :
    ∀ rec : UploadRecord, (_flush_device_unlocked bufs d' t).2 = some rec →
    rec.device_id = d' := by
  unfold _flush_device_unlocked
  cases hget : dget bufs d' with
  | none => intro rec h; exact absurd h (by simp)
  | some buf =>
      cases hdata : hasData buf with
      | false =>
          simp only [hdata, Bool.false_eq_true, not_false_eq_true, if_true]
          intro rec h
          exact absurd h (by simp)
      | true =>
          simp only [hdata, not_true_eq_false, if_false]
          intro rec h
          rw [← Option.some.inj h]

theorem seenAfter_ingest (bufs : Buffers) (d' : String) (ss : List Sample)
    (len : Nat) (t t0 : ℚ) (d : String) (ht : t0 ≤ t)
    (h : SeenAfter t0 d bufs) :
    SeenAfter t0 d (uploadIngest bufs d' ss len t) := by
  intro b hb
  by_cases hd : d' = d
  · subst hd
    simp only [uploadIngest, dget_dset_self, Option.some.injEq] at hb
    rw [← hb]
    exact ht
  · simp only [uploadIngest] at hb
    rw [dget_dset_ne _ _ _ _ hd] at hb
    exact h b hb

theorem sweepVisit_inv (t t0 : ℚ) (d : String) (ht : t < t0 + FLUSH_INTERVAL_SEC)
    (p : String × DeviceBuffer) (hp : p.1 = d → t0 ≤ p.2.last_seen)
    (acc : Buffers × List UploadRecord)
    (hseen : SeenAfter t0 d acc.1) (hnd : (acc.1.map Prod.fst).Nodup)
    (hrec : acc.2.filter (fun rec => decide (rec.device_id = d)) = []) :
    SeenAfter t0 d (sweepVisit t acc p).1
    ∧ ((sweepVisit t acc p).1.map Prod.fst).Nodup
    ∧ (sweepVisit t acc p).2.filter (fun rec => decide (rec.device_id = d)) = [] := by
  unfold sweepVisit
  by_cases hguard : hasData p.2 ∧ t - p.2.last_seen ≥ FLUSH_INTERVAL_SEC
  · by_cases hd : p.1 = d
    · exfalso
      have h1 : t0 ≤ p.2.last_seen := hp hd
      have h2 : t - p.2.last_seen ≥ FLUSH_INTERVAL_SEC := hguard.2
      linarith
    · rw [if_pos hguard]
      refine ⟨?_, ?_, ?_⟩
      · intro b hb
        rw [flush_dget_other _ _ _ _ hd] at hb
        exact hseen b hb
      · exact flush_keys_nodup _ _ _ hnd
      · simp only [List.filter_append, hrec, List.nil_append]
        cases h2 : (_flush_device_unlocked acc.1 p.1 t).2 with
        | none => rfl
        | some rec =>
            have hdev : rec.device_id = p.1 := flush_record_device _ _ _ rec h2
            simp [Option.toList, hdev, hd]
  · rw [if_neg hguard]
    exact ⟨hseen, hnd, hrec⟩

theorem sweepFold_inv (t t0 : ℚ) (d : String) (ht : t < t0 + FLUSH_INTERVAL_SEC) :
    ∀ (items : List (String × DeviceBuffer)) (acc : Buffers × List UploadRecord),
    (∀ p ∈ items, p.1 = d → t0 ≤ p.2.last_seen) →
    SeenAfter t0 d acc.1 → (acc.1.map Prod.fst).Nodup →
    acc.2.filter (fun rec => decide (rec.device_id = d)) = [] →
    SeenAfter t0 d (items.foldl (sweepVisit t) acc).1
    ∧ ((items.foldl (sweepVisit t) acc).1.map Prod.fst).Nodup
    ∧ (items.foldl (sweepVisit t) acc).2.filter (fun rec => decide (rec.device_id = d)) = [] := by
  intro items
  induction items with
  | nil => intro acc _ hseen hnd hrec; exact ⟨hseen, hnd, hrec⟩
  | cons p rest ih =>
      intro acc hitems hseen hnd hrec
      have hstep := sweepVisit_inv t t0 d ht p (hitems p (List.mem_cons_self p rest))
        acc hseen hnd hrec
      exact ih (sweepVisit t acc p)
        (fun q hq => hitems q (List.mem_cons_of_mem p hq))
        hstep.1 hstep.2.1 hstep.2.2

theorem runAgg_no_device_records (d : String) (t0 : ℚ) :
    ∀ (events : List AggEvent) (bufs : Buffers),
    (bufs.map Prod.fst).Nodup → SeenAfter t0 d bufs →
    (∀ e ∈ events, t0 ≤ e.time ∧ e.time < t0 + FLUSH_INTERVAL_SEC) →
    (runAgg bufs events).2.filter (fun rec => decide (rec.device_id = d)) = [] := by
  intro events
  induction events with
  | nil => intro bufs _ _ _; rfl
  | cons e rest ih =>
      intro bufs hnd hseen htimes
      obtain ⟨hte, htl⟩ := htimes e (List.mem_cons_self e rest)
      have htimes' : ∀ e' ∈ rest, t0 ≤ e'.time ∧ e'.time < t0 + FLUSH_INTERVAL_SEC :=
        fun e' he' => htimes e' (List.mem_cons_of_mem e he')
      cases e with
      | ingest d' ss len t =>
          simp only [runAgg, aggStep, List.nil_append]
          exact ih (uploadIngest bufs d' ss len t)
            (by simp only [uploadIngest]; exact dset_keys _ _ _ hnd)
            (seenAfter_ingest bufs d' ss len t t0 d hte hseen) htimes'
      | sweep t =>
          have hsweep := sweepFold_inv t t0 d htl bufs (bufs, [])
            (fun p hp hpd => hseen p.2 (mem_dget _ _ _ hnd (by rw [← hpd]; exact hp)))
            hseen hnd rfl
          simp only [runAgg, aggStep, sweepStep, List.filter_append]
          rw [hsweep.2.2, List.nil_append]
          exact ih _ hsweep.2.1 hsweep.1 htimes'

/-- C6.  Every ingest resets the device's debounce baseline `last_seen` to the
ingest time; consequently, starting from any buffer state whose baseline
for device `d` is at least `t0` (e.g. right after an ingest at `t0`), no
scheduler sweep occurring before `t0 + 15` seconds produces a flush record
for `d` — in particular two ingests within the window admit no intervening
flush, and a flush can only happen once the full window has elapsed with
no newer data. -/
theorem no_flush_within_debounce :
    (∀ (bufs : Buffers) (d : String) (ss : List Sample) (len : Nat) (t : ℚ),
      getLastSeen (uploadIngest bufs d ss len t) d = some t)
    ∧ (∀ (events : List AggEvent) (bufs : Buffers) (d : String) (t0 : ℚ),
        (bufs.map Prod.fst).Nodup →
        (∀ b, dget bufs d = some b → t0 ≤ b.last_seen) →
        (∀ e ∈ events, t0 ≤ e.time ∧ e.time < t0 + FLUSH_INTERVAL_SEC) →
        (runAgg bufs events).2.filter (fun rec => decide (rec.device_id = d)) = []) := by
  constructor
  · intro bufs d ss len t
    simp only [getLastSeen, uploadIngest, dget_dset_self, Option.map_some']
  · intro events bufs d t0 hnd hseen htimes
    exact runAgg_no_device_records d t0 events bufs hnd hseen htimes

/-- A concrete one-device buffer table used by the C6 witness. -/
def demoBuf : DeviceBuffer :=
  { reg_values := [(5, [12])], received_bytes := 9, last_seen := 10 }

/-- C6 witness: a buffer for device `dev` last active at `t0 = 10` is not
flushed by a sweep at `t = 20` (only 10 seconds of inactivity). -/
theorem no_flush_within_debounce_witness :
    (runAgg [("dev", demoBuf)] [.sweep 20]).2.filter
      (fun rec => decide (rec.device_id = "dev")) = [] := by
  refine no_flush_within_debounce.2 [.sweep 20] _ "dev" 10 (by decide) ?_ ?_
  · intro b hb
    have heq : dget [("dev", demoBuf)] "dev" = some demoBuf := rfl
    rw [heq] at hb
    rw [← Option.some.inj hb]
    norm_num [demoBuf]
  · intro e he
    simp only [List.mem_singleton] at he
    subst he
    norm_num [AggEvent.time, FLUSH_INTERVAL_SEC]

end EcoWatt
